import Mathlib

/-!
Verification of the arbitrage agent in `agent.py` (TradingBot).

The development shallowly embeds the decision-and-execution engine:

* `simulate_arbitrage` — the per-probe scan step (quotes, fee estimate,
  on-chain simulation, gas estimate, net-profit computation), including the
  Python numeric-tower behaviour that decides its outcome: `w3.from_wei`
  produces an exact `decimal.Decimal` for a nonzero argument (and the plain
  int `0` for a zero argument, per `eth_utils.from_wei`), while the fee and
  gas figures are binary floats, and Python raises `TypeError` on
  `Decimal - float`.
* `select` — the best-candidate fold performed inline in the scan loop of
  `execute_arbitrage` (lines 226-254).
* `execute_arbitrage` — the per-cycle gas guard, nonce acquisition and
  submission-outcome bookkeeping (lines 256-314).  External reads (pool
  quotes, base fee, suggested priority fee, pending transaction count) and
  the submission outcome are supplied as an explicit environment, so the
  nonce/guard machinery can be verified for arbitrary scan results.
* `runLoop` / `mainModel` — the polling loop of `main` (lines 387-401),
  with the chain-height read of each iteration and the outcome of
  `handle_new_block` supplied per iteration.

Float values are carried as exact rationals.  No theorem below depends on
binary rounding: every proved fact is a type-level error, a sign, or an
inequality with a margin many orders of magnitude wider than any rounding
error of the source's float arithmetic.
-/

namespace TradingBot

/-- Python numeric values flowing through `simulate_arbitrage`: plain ints,
binary floats (value carried exactly as a rational) and `decimal.Decimal`
values (exact). -/
inductive PyNum where
  | int : ℤ → PyNum
  | float : ℚ → PyNum
  | dec : ℚ → PyNum
deriving DecidableEq

/-- Numeric value of a Python number, forgetting its runtime type. -/
def PyNum.val : PyNum → ℚ
  | .int n => (n : ℚ)
  | .float q => q
  | .dec q => q

/-- Python subtraction on the tower, restricted to the cases reachable in
`simulate_arbitrage`: int/float mixes coerce to float, `Decimal` mixes with
int, but `Decimal` with float raises `TypeError` (modelled as `error`). -/
def PyNum.sub : PyNum → PyNum → Except Unit PyNum
  | .int a, .int b => .ok (.int (a - b))
  | .int a, .float b => .ok (.float ((a : ℚ) - b))
  | .float a, .int b => .ok (.float (a - (b : ℚ)))
  | .float a, .float b => .ok (.float (a - b))
  | .dec a, .int b => .ok (.dec (a - (b : ℚ)))
  | .int a, .dec b => .ok (.dec ((a : ℚ) - b))
  | .dec a, .dec b => .ok (.dec (a - b))
  | .dec _, .float _ => .error ()
  | .float _, .dec _ => .error ()

/-- Behaviour of `w3.from_wei(n, 'ether')` (delegating to
`eth_utils.currency.from_wei`): the plain int `0` when `n == 0`, otherwise
the exact `Decimal` value `n / 10^18`. -/
def fromWeiEther (n : ℕ) : PyNum :=
  if n = 0 then .int 0 else .dec ((n : ℚ) / 10 ^ 18)

/-- Lines 162-164 of `agent.py`:
`total_fees_wei = int(token_out * 0.003 + weth_out * 0.003)` — the token
leg is NOT rescaled into wei (the conversion by `10^(18-decimals)` appears
only in the commented-out line 158).  `int` truncation of the nonnegative
sum is natural division by 1000. -/
def totalFeesWei (token_out weth_out : ℕ) : ℕ :=
  (3 * token_out + 3 * weth_out) / 1000

/-- Line 165: `total_fees_weth = total_fees_wei / 1e18`, a Python float. -/
def totalFeesWeth (token_out weth_out : ℕ) : ℚ :=
  (totalFeesWei token_out weth_out : ℚ) / 10 ^ 18

/-- Lines 189-196: the gas-cost estimate in WETH.  On a successful
estimate, `int(gas_estimate * GAS_BUFFER * gas_price) / 10**18` with
`GAS_BUFFER = 1.2`; on an estimation exception, the fixed fallback `0.01`.
Both branches are Python floats. -/
def probeGasCost : Except Unit (ℕ × ℕ) → ℚ
  | .error _ => 1 / 100
  | .ok (est, price) => (((6 * est * price) / 5 : ℕ) : ℚ) / 10 ^ 18

/-- Outcome tuple of one probe,
`(profitable, estimated_profit, net_profit_weth, gas_cost_weth)`.
`grossProfit` is the wei-denominated `estimated_profit` returned by the
contract simulation. -/
structure SimResult where
  profitable : Bool
  grossProfit : ℕ
  netProfit : ℚ
  gasCost : ℚ
deriving DecidableEq

/-- Line 224: the tuple `(False, 0, 0, 0)` returned by the per-probe
exception handler. -/
def failTuple : SimResult := ⟨false, 0, 0, 0⟩

deriving instance DecidableEq for Except

/-- Environment of one `(pair, amount)` probe: results of the two
`getAmountsOut` pool quotes (`token_out`, `weth_out`), of the
`simulateArbitrage` call (`(profitable, estimated_profit)`), and of gas
estimation (`(gas_estimate, gas_price)`); `error` is an exception raised by
the corresponding remote call. -/
structure ProbeEnv where
  quote1 : Except Unit ℕ
  quote2 : Except Unit ℕ
  simCall : Except Unit (Bool × ℕ)
  gasEstimate : Except Unit (ℕ × ℕ)
deriving DecidableEq

/-- Lines 198-200: `gross_profit_weth = w3.from_wei(estimated_profit,
'ether')` followed by `net_profit_weth = gross_profit_weth -
total_fees_weth - gas_cost_weth`, both subtractions subject to Python's
numeric-tower rules (`fees` and `gas` are floats). -/
def netProfitCalc (estimated_profit : ℕ) (fees gas : ℚ) : Except Unit ℚ :=
  match (fromWeiEther estimated_profit).sub (.float fees) with
  | .error e => .error e
  | .ok s1 =>
    match s1.sub (.float gas) with
    | .error e => .error e
    | .ok s2 => .ok s2.val

/-- Body of the `try` block of `simulate_arbitrage` (lines 135-218): the
two quotes, the simulation call, the (internally caught) gas estimate, the
net-profit computation, and the debug prints of lines 207-216; any escaping
exception is `error`.  The except of lines 194-196 binds only
`gas_cost_weth`, so after a failed gas estimation the names `gas_estimate`,
`gas_price` and `gas_cost_wei` are unbound and the print at line 213 raises
UnboundLocalError — a probe whose gas estimation failed can therefore never
reach the `return` at line 218, even when the net-profit subtraction
succeeded. -/
def simulateCore (env : ProbeEnv) : Except Unit SimResult :=
  match env.quote1 with
  | .error e => .error e
  | .ok t =>
    match env.quote2 with
    | .error e => .error e
    | .ok w =>
      match env.simCall with
      | .error e => .error e
      | .ok (pb, ep) =>
        let gas := probeGasCost env.gasEstimate
        match netProfitCalc ep (totalFeesWeth t w) gas with
        | .error e => .error e
        | .ok net =>
          match env.gasEstimate with
          | .error e => .error e
          | .ok _ => .ok ⟨pb, ep, net, gas⟩

/-- Lines 134-224: `simulate_arbitrage` with its outer `try/except`; an
exception anywhere in the probe is caught and reported as
`(False, 0, 0, 0)`. -/
def simulate_arbitrage (env : ProbeEnv) : SimResult :=
  match simulateCore env with
  | .ok r => r
  | .error _ => failTuple

/-- Results of one scan in iteration order: pairs outer loop, amounts
inner loop (lines 235-238), one `simulate_arbitrage` outcome per
`(pair, amount)` probe, with `oracle` supplying each probe's environment. -/
def scanResults {P A : Type} (oracle : P → A → ProbeEnv)
    (pairs : List P) (amounts : List A) : List SimResult :=
  pairs.flatMap fun p => amounts.map fun a => simulate_arbitrage (oracle p a)

/-- Candidate condition of the selection loop (lines 244-248):
`profitable` and `estimated_profit >= MIN_PROFIT_THRESHOLD` and
`net_profit_weth > 0`. -/
def qualifies (thr : ℕ) (r : SimResult) : Prop :=
  r.profitable = true ∧ thr ≤ r.grossProfit ∧ 0 < r.netProfit

instance (thr : ℕ) (r : SimResult) : Decidable (qualifies thr r) := by
  unfold qualifies; infer_instance

/-- Comparison against the running best (`best_net_profit` starts at
`-inf`, so any net profit beats an empty accumulator). -/
def beatsBest (acc : Option SimResult) (r : SimResult) : Prop :=
  match acc with
  | none => True
  | some b => b.netProfit < r.netProfit

instance (acc : Option SimResult) (r : SimResult) : Decidable (beatsBest acc r) := by
  unfold beatsBest
  match acc with
  | none => exact inferInstance
  | some b => exact inferInstance

/-- One iteration of the selection loop (lines 244-254): replace the
running best exactly when the probe is profitable, its gross profit meets
the threshold, its net profit strictly beats the running best, and its net
profit is positive. -/
def selStep (thr : ℕ) (acc : Option SimResult) (r : SimResult) : Option SimResult :=
  if r.profitable = true ∧ thr ≤ r.grossProfit ∧ beatsBest acc r ∧ 0 < r.netProfit
  then some r else acc

/-- The selection performed inline in the scan loop of `execute_arbitrage`:
fold `selStep` over the probe results in iteration order, starting from no
candidate (`best_profitable = False`, `best_net_profit = -inf`). -/
def select (thr : ℕ) (rs : List SimResult) : Option SimResult :=
  rs.foldl (selStep thr) none

/-- Configuration constants read by `execute_arbitrage`:
`MIN_PROFIT_THRESHOLD`, `MAX_GAS_PRICE`, `BASE_PRIORITY_FEE` (all wei). -/
structure AgentConfig where
  minProfitThreshold : ℕ
  maxGasPrice : ℕ
  basePriorityFee : ℕ
deriving DecidableEq

/-- Terminal outcome of the submission `try` block: receipt with success
status, receipt with failure status (mined but reverted), or an exception
anywhere in the build/sign/broadcast/await span; in the exception case
`resyncCount` is the pending transaction count returned by the
resynchronising fetch of line 313. -/
inductive SubOutcome where
  | success
  | reverted
  | failure (resyncCount : ℕ)
deriving DecidableEq

/-- Environment of one execution cycle: the scan results (in probe
iteration order), the latest block's base fee, the suggested priority fee,
the pending transaction count returned by `get_transaction_count` if the
acquisition fetch runs, and the outcome of the submission span if it is
reached. -/
structure CycleEnv where
  results : List SimResult
  baseFee : ℕ
  suggestedPriority : ℕ
  pendingCount : ℕ
  outcome : SubOutcome
deriving DecidableEq

/-- Lines 261-264: `priority_fee = min(BASE_PRIORITY_FEE, max_priority_fee)`,
`max_fee = base_fee + priority_fee`; `none` when `max_fee > MAX_GAS_PRICE`
(the cycle returns without submitting), otherwise the accepted
`(max_fee, priority_fee)` used as the transaction's fee parameters. -/
def gasGuard (cfg : AgentConfig) (baseFee suggested : ℕ) : Option (ℕ × ℕ) :=
  let priorityFee := min cfg.basePriorityFee suggested
  let maxFee := baseFee + priorityFee
  if cfg.maxGasPrice < maxFee then none else some (maxFee, priorityFee)

/-- Lines 270-273: nonce acquisition — fetch the pending count when no
local nonce is held, otherwise increment the held value by one. -/
def acquireNonce (pendingCount : ℕ) : Option ℤ → ℤ
  | none => (pendingCount : ℤ)
  | some k => k + 1

/-- What one execution cycle did after selection: no qualifying candidate,
abandoned by the gas guard (recording the observed `max_fee`), or an
attempted submission with the nonce and fee parameters it used. -/
inductive CycleStep where
  | noCandidate
  | gasRejected (maxFee : ℕ)
  | attempted (txNonce : ℤ) (maxFee priorityFee : ℕ) (outcome : SubOutcome)
deriving DecidableEq

/-- Lines 226-314 of `agent.py`, `execute_arbitrage` from selection
onwards: select the best candidate from the cycle's probe results; if none
qualifies, return with the nonce state untouched; otherwise run the gas
guard, and on acceptance acquire a nonce and perform the submission whose
outcome the environment dictates — a success receipt leaves the held nonce
at the acquired value, a failure receipt decrements it (line 307), and an
exception replaces it by the freshly fetched pending count (line 313).
Returns the new held nonce together with the step taken. -/
def execute_arbitrage (cfg : AgentConfig) (env : CycleEnv) (lastNonce : Option ℤ) :
    Option ℤ × CycleStep :=
  match select cfg.minProfitThreshold env.results with
  | none => (lastNonce, .noCandidate)
  | some _ =>
    match gasGuard cfg env.baseFee env.suggestedPriority with
    | none =>
      (lastNonce, .gasRejected (env.baseFee + min cfg.basePriorityFee env.suggestedPriority))
    | some (maxFee, prio) =>
      let n := acquireNonce env.pendingCount lastNonce
      match env.outcome with
      | .success => (some n, .attempted n maxFee prio .success)
      | .reverted => (some (n - 1), .attempted n maxFee prio .reverted)
      | .failure c => (some (c : ℤ), .attempted n maxFee prio (.failure c))

/-- Held nonce after a sequence of execution cycles. -/
def runCycles (cfg : AgentConfig) (envs : List CycleEnv) (lastNonce : Option ℤ) : Option ℤ :=
  envs.foldl (fun n e => (execute_arbitrage cfg e n).1) lastNonce

/-- A cycle whose environment selects a candidate, passes the gas guard,
and whose submission confirms successfully. -/
def goodCycle (cfg : AgentConfig) (e : CycleEnv) : Prop :=
  (∃ r, select cfg.minProfitThreshold e.results = some r)
  ∧ gasGuard cfg e.baseFee e.suggestedPriority ≠ none
  ∧ e.outcome = .success

/-- Outcome of one `handle_new_block` invocation as seen by the polling
loop: the wrapped `execute_arbitrage` either completed (returning its
success flag) or raised. -/
inductive HandlerEv where
  | completed (success : Bool)
  | raisedErr
deriving DecidableEq

/-- Lines 317-325: `handle_new_block` wraps the execution cycle in
`try/except`; an exception is caught, reported, and converted into
`(False, INITIAL_BACKOFF)` with `INITIAL_BACKOFF = 10`. -/
def handle_new_block : HandlerEv → Bool × ℕ
  | .completed s => (s, 0)
  | .raisedErr => (false, 10)

/-- Environment of one polling-loop iteration: the result of the
`w3.eth.block_number` read at the top of the loop (line 394, not wrapped in
any `try`), and — if the height advanced — the outcome of
`handle_new_block`. -/
structure LoopEnv where
  blockNumber : Except Unit ℕ
  handler : HandlerEv
deriving DecidableEq

/-- Fate of the process in the model: `startupFatal` when the very first
height read fails (line 390-392, `main` returns), `crashed` when an
exception escapes the polling loop and terminates the process, `polling`
when the loop is still running after the observed iterations. -/
inductive MainResult where
  | startupFatal
  | crashed
  | polling (lastBlock : ℕ)
deriving DecidableEq

/-- Lines 393-401: the polling loop.  Each iteration reads the chain
height with no surrounding `try`: a raised exception escapes the loop and
kills the process.  On an advanced height the handler runs (its outcome
never escapes, `handle_new_block` catches internally) and the watermark
advances; otherwise the iteration is a no-op sleep. -/
def runLoop : ℕ → List LoopEnv → MainResult
  | lb, [] => .polling lb
  | lb, e :: es =>
    match e.blockNumber with
    | .error _ => .crashed
    | .ok h =>
      if lb < h then
        let _ := handle_new_block e.handler
        runLoop h es
      else runLoop lb es

/-- Lines 387-401: `main` after startup — the guarded first height read
(fatal `return` on failure) followed by the polling loop. -/
def mainModel (firstRead : Except Unit ℕ) (envs : List LoopEnv) : MainResult :=
  match firstRead with
  | .error _ => .startupFatal
  | .ok lb => runLoop lb envs

/-- Modelled from the spec: the fee cost the specification describes — a
0.3% proportional fee applied to each swap leg's output with both legs
converted into the base asset's (WETH's) unit before summation: the token
leg (`d` token decimals) is rescaled by `10^(18-d)` into wei.  This is the
computation of the commented-out line 158 of `agent.py`; the live code
omits the rescaling. -/
def specFeeCostWeth (d token_out weth_out : ℕ) : ℚ :=
  ((3 : ℚ) / 1000 * token_out * 10 ^ (18 - d) + (3 : ℚ) / 1000 * weth_out) / 10 ^ 18

/-! ### Helper lemmas on the selection fold -/

theorem selStep_none (thr : ℕ) (r : SimResult) :
    selStep thr none r = if qualifies thr r then some r else none := by
  by_cases h : qualifies thr r
  · rw [selStep, if_pos ⟨h.1, h.2.1, True.intro, h.2.2⟩, if_pos h]
  · rw [selStep, if_neg, if_neg h]
    intro hc
    exact h ⟨hc.1, hc.2.1, hc.2.2.2⟩

theorem selStep_some (thr : ℕ) (b r : SimResult) :
    selStep thr (some b) r =
      if qualifies thr r ∧ b.netProfit < r.netProfit then some r else some b := by
  by_cases h : qualifies thr r ∧ b.netProfit < r.netProfit
  · rw [selStep, if_pos ⟨h.1.1, h.1.2.1, h.2, h.1.2.2⟩, if_pos h]
  · rw [selStep, if_neg, if_neg h]
    intro hc
    exact h ⟨⟨hc.1, hc.2.1, hc.2.2.2⟩, hc.2.2.1⟩

theorem select_append (thr : ℕ) (rs : List SimResult) (r : SimResult) :
    select thr (rs ++ [r]) = selStep thr (select thr rs) r := by
  simp [select, List.foldl_append]

theorem select_eq_none_iff (thr : ℕ) (rs : List SimResult) :
    select thr rs = none ↔ ∀ r ∈ rs, ¬ qualifies thr r := by
  induction rs using List.reverseRecOn with
  | nil => simp [select]
  | append_singleton l r ih =>
    rw [select_append]
    rcases hl : select thr l with _ | b
    · rw [selStep_none]
      by_cases hq : qualifies thr r
      · simp only [if_pos hq]
        simp only [List.mem_append, List.mem_singleton]
        constructor
        · intro hc; cases hc
        · intro hall
          exact absurd hq (hall r (Or.inr rfl))
      · simp only [if_neg hq]
        simp only [List.mem_append, List.mem_singleton]
        constructor
        · intro _ x hx
          rcases hx with hx | rfl
          · exact (ih.mp hl) x hx
          · exact hq
        · intro _
          trivial
    · rw [selStep_some]
      constructor
      · intro hc
        by_cases hq : qualifies thr r ∧ b.netProfit < r.netProfit
        · rw [if_pos hq] at hc; cases hc
        · rw [if_neg hq] at hc; cases hc
      · intro hall
        exfalso
        have : select thr l = none := by
          rw [ih]
          intro x hx
          exact hall x (List.mem_append.mpr (Or.inl hx))
        rw [hl] at this
        cases this

theorem select_qualifies (thr : ℕ) (rs : List SimResult) (b : SimResult)
    (h : select thr rs = some b) : qualifies thr b := by
  induction rs using List.reverseRecOn with
  | nil => cases h
  | append_singleton l r ih =>
    rw [select_append] at h
    rcases hl : select thr l with _ | b0
    · rw [hl, selStep_none] at h
      by_cases hq : qualifies thr r
      · rw [if_pos hq] at h; cases h; exact hq
      · rw [if_neg hq] at h; cases h
    · rw [hl, selStep_some] at h
      by_cases hq : qualifies thr r ∧ b0.netProfit < r.netProfit
      · rw [if_pos hq] at h; cases h; exact hq.1
      · rw [if_neg hq] at h; cases h; exact ih hl

theorem select_mem (thr : ℕ) (rs : List SimResult) (b : SimResult)
    (h : select thr rs = some b) : b ∈ rs := by
  induction rs using List.reverseRecOn with
  | nil => cases h
  | append_singleton l r ih =>
    rw [select_append] at h
    rcases hl : select thr l with _ | b0
    · rw [hl, selStep_none] at h
      by_cases hq : qualifies thr r
      · rw [if_pos hq] at h; cases h
        exact List.mem_append.mpr (Or.inr (List.mem_singleton.mpr rfl))
      · rw [if_neg hq] at h; cases h
    · rw [hl, selStep_some] at h
      by_cases hq : qualifies thr r ∧ b0.netProfit < r.netProfit
      · rw [if_pos hq] at h; cases h
        exact List.mem_append.mpr (Or.inr (List.mem_singleton.mpr rfl))
      · rw [if_neg hq] at h; cases h
        exact List.mem_append.mpr (Or.inl (ih hl))

theorem select_max (thr : ℕ) (rs : List SimResult) :
    ∀ b, select thr rs = some b →
      ∀ r ∈ rs, qualifies thr r → r.netProfit ≤ b.netProfit := by
  induction rs using List.reverseRecOn with
  | nil => intro b h; cases h
  | append_singleton l r ih =>
    intro b h
    rw [select_append] at h
    intro x hx hxq
    rcases List.mem_append.mp hx with hx | hx
    · rcases hl : select thr l with _ | b0
      · exact absurd hxq ((select_eq_none_iff thr l).mp hl x hx)
      · rw [hl, selStep_some] at h
        have hxb0 : x.netProfit ≤ b0.netProfit := ih b0 hl x hx hxq
        by_cases hq : qualifies thr r ∧ b0.netProfit < r.netProfit
        · rw [if_pos hq] at h; cases h
          exact hxb0.trans hq.2.le
        · rw [if_neg hq] at h; cases h
          exact hxb0
    · rw [List.mem_singleton] at hx
      subst hx
      rcases hl : select thr l with _ | b0
      · rw [hl, selStep_none, if_pos hxq] at h
        cases h
        exact le_refl _
      · rw [hl, selStep_some] at h
        by_cases hq : qualifies thr x ∧ b0.netProfit < x.netProfit
        · rw [if_pos hq] at h; cases h; exact le_refl _
        · rw [if_neg hq] at h; cases h
          push_neg at hq
          exact hq hxq

theorem select_first_seen (thr : ℕ) (rs : List SimResult) :
    ∀ b, select thr rs = some b →
      ∃ l1 l2, rs = l1 ++ b :: l2
        ∧ ∀ r ∈ l1, qualifies thr r → r.netProfit < b.netProfit := by
  induction rs using List.reverseRecOn with
  | nil => intro b h; cases h
  | append_singleton l r ih =>
    intro b h
    rw [select_append] at h
    rcases hl : select thr l with _ | b0
    · rw [hl, selStep_none] at h
      by_cases hq : qualifies thr r
      · rw [if_pos hq] at h; cases h
        refine ⟨l, [], by simp, ?_⟩
        intro x hx hxq
        exact absurd hxq ((select_eq_none_iff thr l).mp hl x hx)
      · rw [if_neg hq] at h; cases h
    · rw [hl, selStep_some] at h
      by_cases hq : qualifies thr r ∧ b0.netProfit < r.netProfit
      · rw [if_pos hq] at h; cases h
        refine ⟨l, [], by simp, ?_⟩
        intro x hx hxq
        exact lt_of_le_of_lt (select_max thr l b0 hl x hx hxq) hq.2
      · rw [if_neg hq] at h; cases h
        rcases ih b hl with ⟨l1, l2, hsplit, hlt⟩
        exact ⟨l1, l2 ++ [r], by simp [hsplit], hlt⟩

/-! ### Helper lemmas on the probe step -/

theorem simulate_arbitrage_of_error (env : ProbeEnv)
    (h : simulateCore env = .error ()) : simulate_arbitrage env = failTuple := by
  simp [simulate_arbitrage, h]

theorem simulateCore_oracle_error (env : ProbeEnv)
    (h : env.quote1 = .error () ∨ env.quote2 = .error () ∨ env.simCall = .error ()) :
    simulateCore env = .error () := by
  rcases hq1 : env.quote1 with e | t
  · cases e; simp [simulateCore, hq1]
  · rcases hq2 : env.quote2 with e | w
    · cases e; simp [simulateCore, hq1, hq2]
    · rcases hs : env.simCall with e | ps
      · cases e; simp [simulateCore, hq1, hq2, hs]
      · rcases h with h | h | h
        · rw [hq1] at h; cases h
        · rw [hq2] at h; cases h
        · rw [hs] at h; cases h

theorem simulate_pos_profit (env : ProbeEnv) (t w : ℕ) (pb : Bool) (ep : ℕ)
    (h1 : env.quote1 = .ok t) (h2 : env.quote2 = .ok w)
    (h3 : env.simCall = .ok (pb, ep)) (hep : 0 < ep) :
    simulate_arbitrage env = failTuple := by
  have hne : ep ≠ 0 := Nat.pos_iff_ne_zero.mp hep
  simp [simulate_arbitrage, simulateCore, h1, h2, h3, netProfitCalc, fromWeiEther, hne,
    PyNum.sub]

theorem simulate_zero_profit (env : ProbeEnv) (t w : ℕ) (pb : Bool) (g : ℕ × ℕ)
    (h1 : env.quote1 = .ok t) (h2 : env.quote2 = .ok w)
    (h3 : env.simCall = .ok (pb, 0)) (h4 : env.gasEstimate = .ok g) :
    simulate_arbitrage env =
      ⟨pb, 0, -totalFeesWeth t w - probeGasCost env.gasEstimate,
        probeGasCost env.gasEstimate⟩ := by
  simp [simulate_arbitrage, simulateCore, h1, h2, h3, h4, netProfitCalc, fromWeiEther,
    PyNum.sub, PyNum.val]

theorem simulate_gas_estimation_error (env : ProbeEnv)
    (h : env.gasEstimate = .error ()) : simulate_arbitrage env = failTuple := by
  rcases hq1 : env.quote1 with e | t
  · cases e
    exact simulate_arbitrage_of_error env (simulateCore_oracle_error env (Or.inl hq1))
  · rcases hq2 : env.quote2 with e | w
    · cases e
      exact simulate_arbitrage_of_error env
        (simulateCore_oracle_error env (Or.inr (Or.inl hq2)))
    · rcases hs : env.simCall with e | ps
      · cases e
        exact simulate_arbitrage_of_error env
          (simulateCore_oracle_error env (Or.inr (Or.inr hs)))
      · rcases ps with ⟨pb, ep⟩
        rcases Nat.eq_zero_or_pos ep with hz | hpo
        · subst hz
          simp [simulate_arbitrage, simulateCore, hq1, hq2, hs, h, netProfitCalc,
            fromWeiEther, PyNum.sub, PyNum.val]
        · exact simulate_pos_profit env t w pb ep hq1 hq2 hs hpo

theorem totalFeesWeth_nonneg (t w : ℕ) : 0 ≤ totalFeesWeth t w := by
  unfold totalFeesWeth
  positivity

theorem probeGasCost_nonneg (g : Except Unit (ℕ × ℕ)) : 0 ≤ probeGasCost g := by
  rcases g with e | ⟨est, price⟩
  · norm_num [probeGasCost]
  · unfold probeGasCost
    positivity

theorem simulate_not_selectable (env : ProbeEnv) :
    ¬((simulate_arbitrage env).profitable = true
      ∧ 0 < (simulate_arbitrage env).netProfit) := by
  rintro ⟨-, hpos⟩
  rcases hq1 : env.quote1 with e | t
  · cases e
    rw [simulate_arbitrage_of_error env (simulateCore_oracle_error env (Or.inl hq1))] at hpos
    norm_num [failTuple] at hpos
  · rcases hq2 : env.quote2 with e | w
    · cases e
      rw [simulate_arbitrage_of_error env
        (simulateCore_oracle_error env (Or.inr (Or.inl hq2)))] at hpos
      norm_num [failTuple] at hpos
    · rcases hs : env.simCall with e | ps
      · cases e
        rw [simulate_arbitrage_of_error env
          (simulateCore_oracle_error env (Or.inr (Or.inr hs)))] at hpos
        norm_num [failTuple] at hpos
      · rcases ps with ⟨pb, ep⟩
        rcases Nat.eq_zero_or_pos ep with hz | hpo
        · subst hz
          rcases hg : env.gasEstimate with e | g
          · cases e
            rw [simulate_gas_estimation_error env hg] at hpos
            norm_num [failTuple] at hpos
          · rw [simulate_zero_profit env t w pb g hq1 hq2 hs hg] at hpos
            have hf := totalFeesWeth_nonneg t w
            have hgc := probeGasCost_nonneg env.gasEstimate
            simp only at hpos
            linarith
        · rw [simulate_pos_profit env t w pb ep hq1 hq2 hs hpo] at hpos
          norm_num [failTuple] at hpos

/-! ### Helper lemmas on the cycle machinery -/

theorem gasGuard_eq_none_iff (cfg : AgentConfig) (baseFee suggested : ℕ) :
    gasGuard cfg baseFee suggested = none ↔
      cfg.maxGasPrice < baseFee + min cfg.basePriorityFee suggested := by
  by_cases h : cfg.maxGasPrice < baseFee + min cfg.basePriorityFee suggested
  · simp [gasGuard, h]
  · simp [gasGuard, h]

theorem gasGuard_of_le (cfg : AgentConfig) (baseFee suggested : ℕ)
    (h : baseFee + min cfg.basePriorityFee suggested ≤ cfg.maxGasPrice) :
    gasGuard cfg baseFee suggested
      = some (baseFee + min cfg.basePriorityFee suggested,
              min cfg.basePriorityFee suggested) := by
  simp [gasGuard, not_lt.mpr h]

theorem gasGuard_accept (cfg : AgentConfig) (baseFee suggested mf p : ℕ)
    (h : gasGuard cfg baseFee suggested = some (mf, p)) :
    p = min cfg.basePriorityFee suggested ∧ mf = baseFee + p := by
  by_cases hlt : cfg.maxGasPrice < baseFee + min cfg.basePriorityFee suggested
  · simp [gasGuard, hlt] at h
  · simp [gasGuard, hlt] at h
    exact ⟨h.2.symm, by rw [← h.1, h.2]⟩

theorem execute_noCandidate (cfg : AgentConfig) (env : CycleEnv) (ln : Option ℤ)
    (h : select cfg.minProfitThreshold env.results = none) :
    execute_arbitrage cfg env ln = (ln, .noCandidate) := by
  simp [execute_arbitrage, h]

theorem execute_gasRejected (cfg : AgentConfig) (env : CycleEnv) (ln : Option ℤ)
    (r : SimResult) (hsel : select cfg.minProfitThreshold env.results = some r)
    (hlt : cfg.maxGasPrice < env.baseFee + min cfg.basePriorityFee env.suggestedPriority) :
    execute_arbitrage cfg env ln
      = (ln, .gasRejected (env.baseFee + min cfg.basePriorityFee env.suggestedPriority)) := by
  have hg : gasGuard cfg env.baseFee env.suggestedPriority = none :=
    (gasGuard_eq_none_iff cfg env.baseFee env.suggestedPriority).mpr hlt
  simp [execute_arbitrage, hsel, hg]

theorem execute_attempt (cfg : AgentConfig) (env : CycleEnv) (ln : Option ℤ)
    (r : SimResult) (mf p : ℕ)
    (hsel : select cfg.minProfitThreshold env.results = some r)
    (hg : gasGuard cfg env.baseFee env.suggestedPriority = some (mf, p)) :
    execute_arbitrage cfg env ln =
      match env.outcome with
      | .success => (some (acquireNonce env.pendingCount ln),
          .attempted (acquireNonce env.pendingCount ln) mf p .success)
      | .reverted => (some (acquireNonce env.pendingCount ln - 1),
          .attempted (acquireNonce env.pendingCount ln) mf p .reverted)
      | .failure c => (some (c : ℤ),
          .attempted (acquireNonce env.pendingCount ln) mf p (.failure c)) := by
  rcases ho : env.outcome with _ | _ | c
  · simp [execute_arbitrage, hsel, hg, ho]
  · simp [execute_arbitrage, hsel, hg, ho]
  · simp [execute_arbitrage, hsel, hg, ho]

theorem runCycles_cons (cfg : AgentConfig) (e : CycleEnv) (es : List CycleEnv)
    (ln : Option ℤ) :
    runCycles cfg (e :: es) ln = runCycles cfg es ((execute_arbitrage cfg e ln).1) := by
  simp [runCycles]

theorem goodCycle_step (cfg : AgentConfig) (e : CycleEnv) (ln : Option ℤ)
    (h : goodCycle cfg e) :
    (execute_arbitrage cfg e ln).1 = some (acquireNonce e.pendingCount ln) := by
  rcases h with ⟨⟨r, hr⟩, hgne, ho⟩
  rcases hgv : gasGuard cfg e.baseFee e.suggestedPriority with _ | ⟨mf, p⟩
  · exact absurd hgv hgne
  · rw [execute_attempt cfg e ln r mf p hr hgv, ho]

theorem runCycles_good (cfg : AgentConfig) (envs : List CycleEnv) :
    ∀ m : ℤ, (∀ e ∈ envs, goodCycle cfg e) →
      runCycles cfg envs (some m) = some (m + envs.length) := by
  induction envs with
  | nil => intro m _; simp [runCycles]
  | cons e es ih =>
    intro m h
    rw [runCycles_cons, goodCycle_step cfg e (some m) (h e (List.mem_cons_self e es))]
    rw [show acquireNonce e.pendingCount (some m) = m + 1 from rfl]
    rw [ih (m + 1) (fun x hx => h x (List.mem_cons_of_mem e hx))]
    congr 1
    push_cast [List.length_cons]
    ring

theorem runLoop_ok_heights (envs : List LoopEnv) :
    ∀ lb : ℕ, (∀ e ∈ envs, e.blockNumber ≠ .error ()) →
      ∃ lb2, runLoop lb envs = .polling lb2 := by
  induction envs with
  | nil => intro lb _; exact ⟨lb, rfl⟩
  | cons e es ih =>
    intro lb h
    rcases hb : e.blockNumber with u | hgt
    · cases u
      exact absurd hb (h e (List.mem_cons_self e es))
    · have hes : ∀ x ∈ es, x.blockNumber ≠ .error () :=
        fun x hx => h x (List.mem_cons_of_mem e hx)
      by_cases hlt : lb < hgt
      · rcases ih hgt hes with ⟨lb2, h2⟩
        exact ⟨lb2, by simp [runLoop, hb, hlt, h2]⟩
      · rcases ih lb hes with ⟨lb2, h2⟩
        exact ⟨lb2, by simp [runLoop, hb, hlt, h2]⟩

/-! ### The claims -/

/-- C1: For every list of simulation results produced by one execution
cycle's probes (taken in iteration order: pairs outer loop, amounts inner
loop), the selection step picks the result with the strictly greatest
netProfit among those where profitable is true, grossProfit >=
minProfitThreshold, and netProfit > 0, ties resolved first-seen (every
qualifying result strictly before the pick has strictly smaller netProfit);
if no result satisfies all three conditions, no opportunity is selected and
the cycle submits nothing. -/
theorem C1_selection_best (thr : ℕ) (rs : List SimResult)
    (cfg : AgentConfig) (env : CycleEnv) (ln : Option ℤ) :
    (select thr rs = none ↔ ∀ r ∈ rs, ¬ qualifies thr r)
    ∧ (∀ b, select thr rs = some b →
        qualifies thr b
        ∧ (∀ r ∈ rs, qualifies thr r → r.netProfit ≤ b.netProfit)
        ∧ ∃ l1 l2, rs = l1 ++ b :: l2
            ∧ ∀ r ∈ l1, qualifies thr r → r.netProfit < b.netProfit)
    ∧ ((∀ r ∈ env.results, ¬ qualifies cfg.minProfitThreshold r) →
        execute_arbitrage cfg env ln = (ln, CycleStep.noCandidate)) :=
  ⟨select_eq_none_iff thr rs,
   fun b h => ⟨select_qualifies thr rs b h, select_max thr rs b h,
     select_first_seen thr rs b h⟩,
   fun hno => execute_noCandidate cfg env ln ((select_eq_none_iff _ _).mpr hno)⟩

def c1Env : CycleEnv := ⟨[⟨false, 10, 5, 0⟩], 1, 1, 0, .success⟩

/-- Closed instantiation of C1_selection_best: a cycle whose only probe
result is flagged unprofitable selects nothing and submits nothing. -/
theorem C1_selection_best_witness :
    execute_arbitrage ⟨5, 100, 2⟩ c1Env none = (none, CycleStep.noCandidate) :=
  (C1_selection_best 5 [] ⟨5, 100, 2⟩ c1Env none).2.2 (by
    intro r hr
    simp only [c1Env, List.mem_singleton] at hr
    subst hr
    simp [qualifies])

def c2Env : ProbeEnv :=
  ⟨.ok 3000000000, .ok 1000000000000000000, .ok (true, 2000000000000000000),
    .ok (100000, 10000000000)⟩

/-- C2 (code bug): at the failing input — the WETH/USDT pair (6 token
decimals), token_out = 3000000000 (3000 USDT in its smallest unit),
weth_out = 10^18 (1 WETH in wei), estimated_profit = 2 WETH — the live fee
computation sums the token-unit leg and the wei leg without converting the
token leg into the base asset's unit, disagreeing with the fee the claim
describes (about 0.0030 WETH instead of 9.003 WETH; the conversion by
10^(18-decimals) appears only in the commented-out line 158); moreover with
a positive simulated gross profit the net-profit subtraction mixes an exact
decimal with binary floats and raises, so the probe returns (False,0,0,0)
and never any netProfit = grossProfit - feeCost - gasCost. -/
theorem C2_fee_unit_bug :
    totalFeesWeth 3000000000 1000000000000000000 = 3000000009000000 / 10 ^ 18
    ∧ specFeeCostWeth 6 3000000000 1000000000000000000 = 9003 / 1000
    ∧ totalFeesWeth 3000000000 1000000000000000000
        ≠ specFeeCostWeth 6 3000000000 1000000000000000000
    ∧ simulate_arbitrage c2Env = failTuple :=
  ⟨by norm_num [totalFeesWeth, totalFeesWei],
   by norm_num [specFeeCostWeth],
   by norm_num [totalFeesWeth, totalFeesWei, specFeeCostWeth],
   simulate_pos_profit c2Env 3000000000 1000000000000000000 true 2000000000000000000
     rfl rfl rfl (by norm_num)⟩

def c3ZeroEnv : ProbeEnv :=
  ⟨.ok 1000000, .ok 500000, .ok (false, 0), .ok (100000, 10000000000)⟩

/-- C3 counterexample: a probe whose pool quotes, on-chain simulation call
and gas estimation all succeed but whose simulated gross profit is 0:
eth_utils' from_wei returns the plain int 0 (not a Decimal), no TypeError
occurs, and simulate_arbitrage does not return the failure tuple
(False, 0, 0, 0) — its net profit is the negative -(feeCost) - gasCost. -/
theorem C3_counterexample :
    c3ZeroEnv.quote1 = .ok 1000000 ∧ c3ZeroEnv.quote2 = .ok 500000
    ∧ c3ZeroEnv.simCall = .ok (false, 0)
    ∧ c3ZeroEnv.gasEstimate = .ok (100000, 10000000000)
    ∧ simulate_arbitrage c3ZeroEnv ≠ failTuple := by
  refine ⟨rfl, rfl, rfl, rfl, ?_⟩
  simp [simulate_arbitrage, simulateCore, netProfitCalc, fromWeiEther, totalFeesWeth,
    totalFeesWei, probeGasCost, PyNum.sub, PyNum.val, failTuple, SimResult.mk.injEq,
    c3ZeroEnv]

/-- C3 (amended): for every probe whose two pool quotes and on-chain
simulation succeed with a nonzero gross profit — regardless of how gas
estimation fares — w3.from_wei produces an exact decimal while the fee and
gas costs are binary floats, the net-profit subtraction raises a TypeError
caught by the per-probe handler, and simulate_arbitrage returns the failure
tuple (False, 0, 0, 0); when the gross profit is zero AND gas estimation
succeeded, from_wei returns the plain int 0, no TypeError occurs, and the
probe returns normally with the non-positive net profit
-(feeCost) - gasCost (when the gross profit is zero but gas estimation
failed, the line-213 debug print raises UnboundLocalError and the probe
still reports (False, 0, 0, 0)); in every case no probe can yield a
selectable opportunity (profitable with positive net profit). -/
theorem C3_probe_always_unselectable :
    (∀ (env : ProbeEnv) (t w : ℕ) (pb : Bool) (ep : ℕ),
        env.quote1 = .ok t → env.quote2 = .ok w → env.simCall = .ok (pb, ep) →
        0 < ep → simulate_arbitrage env = failTuple)
    ∧ (∀ (env : ProbeEnv) (t w : ℕ) (pb : Bool) (g : ℕ × ℕ),
        env.quote1 = .ok t → env.quote2 = .ok w → env.simCall = .ok (pb, 0) →
        env.gasEstimate = .ok g →
        simulate_arbitrage env =
          ⟨pb, 0, -totalFeesWeth t w - probeGasCost env.gasEstimate,
            probeGasCost env.gasEstimate⟩)
    ∧ (∀ env : ProbeEnv, env.gasEstimate = .error () →
        simulate_arbitrage env = failTuple)
    ∧ ∀ env : ProbeEnv,
        ¬((simulate_arbitrage env).profitable = true
          ∧ 0 < (simulate_arbitrage env).netProfit) :=
  ⟨simulate_pos_profit, simulate_zero_profit,
   fun env h => simulate_gas_estimation_error env h, simulate_not_selectable⟩

def c3PosEnv : ProbeEnv :=
  ⟨.ok 1000000, .ok 500000, .ok (true, 2000000000000000000), .ok (100000, 10000000000)⟩

/-- Closed instantiation of C3_probe_always_unselectable at a succeeding
probe with a positive gross profit. -/
theorem C3_probe_always_unselectable_witness :
    simulate_arbitrage c3PosEnv = failTuple :=
  C3_probe_always_unselectable.1 c3PosEnv 1000000 500000 true 2000000000000000000
    rfl rfl rfl (by norm_num)

/-- C4: the gas admission guard computes priorityFee =
min(basePriorityFeeCap, suggestedPriorityFee) and maxFee = baseFee +
priorityFee, rejects (submits nothing) exactly when maxFee > maxFeeCap, and
otherwise proceeds with that computed maxFee (and priorityFee) as the
transaction's fee parameters — every attempted submission carries exactly
these values. -/
theorem C4_gas_policy_guard (cfg : AgentConfig) (baseFee suggested : ℕ) :
    (gasGuard cfg baseFee suggested = none ↔
      cfg.maxGasPrice < baseFee + min cfg.basePriorityFee suggested)
    ∧ (∀ mf p : ℕ, gasGuard cfg baseFee suggested = some (mf, p) →
        p = min cfg.basePriorityFee suggested ∧ mf = baseFee + p)
    ∧ ∀ (env : CycleEnv) (ln : Option ℤ) (n : ℤ) (mf p : ℕ) (o : SubOutcome),
        (execute_arbitrage cfg env ln).2 = .attempted n mf p o →
        p = min cfg.basePriorityFee env.suggestedPriority ∧ mf = env.baseFee + p := by
  refine ⟨gasGuard_eq_none_iff cfg baseFee suggested,
    fun mf p h => gasGuard_accept cfg baseFee suggested mf p h, ?_⟩
  intro env ln n mf p o h
  rcases hsel : select cfg.minProfitThreshold env.results with _ | r
  · rw [execute_noCandidate cfg env ln hsel] at h
    cases h
  · rcases hg : gasGuard cfg env.baseFee env.suggestedPriority with _ | ⟨mf0, p0⟩
    · rw [execute_gasRejected cfg env ln r hsel
        ((gasGuard_eq_none_iff cfg env.baseFee env.suggestedPriority).mp hg)] at h
      cases h
    · have hacc := gasGuard_accept cfg env.baseFee env.suggestedPriority mf0 p0 hg
      rw [execute_attempt cfg env ln r mf0 p0 hsel hg] at h
      rcases ho : env.outcome with _ | _ | c <;>
      · rw [ho] at h
        simp only [CycleStep.attempted.injEq] at h
        rcases h with ⟨-, hmf, hp, -⟩
        rw [← hmf, ← hp]
        exact hacc

/-- Closed instantiation of C4_gas_policy_guard at the spec's worked
example (all values in wei): baseFee = 80 gwei, priority cap = 2 gwei,
suggested = 5 gwei, maxFee cap = 100 gwei — accepted with maxFee = 82 gwei
and priorityFee = 2 gwei. -/
theorem C4_gas_policy_guard_witness :
    (2000000000 : ℕ)
        = min (AgentConfig.basePriorityFee ⟨5, 100000000000, 2000000000⟩) 5000000000
    ∧ (82000000000 : ℕ) = 80000000000 + 2000000000 :=
  (C4_gas_policy_guard ⟨5, 100000000000, 2000000000⟩ 80000000000 5000000000).2.1
    82000000000 2000000000 (by norm_num [gasGuard])

def cgCfg : AgentConfig := ⟨5, 100, 2⟩

def cgRes : SimResult := ⟨true, 10, 1 / 2, 0⟩

theorem cg_select : select 5 [cgRes] = some cgRes := by
  norm_num [select, selStep, beatsBest, cgRes]

/-- C5: for a submission attempt that starts from a held nonce preAttempt
and ends in a mined-but-failed receipt, the acquisition increments to
preAttempt + 1, the attempt uses that nonce, and the failure-status branch
decrements, leaving the held nonce at exactly preAttempt. -/
theorem C5_reverted_restores_nonce (cfg : AgentConfig) (env : CycleEnv) (k : ℤ)
    (r : SimResult)
    (h1 : select cfg.minProfitThreshold env.results = some r)
    (h2 : env.baseFee + min cfg.basePriorityFee env.suggestedPriority ≤ cfg.maxGasPrice)
    (h3 : env.outcome = .reverted) :
    (execute_arbitrage cfg env (some k)).1 = some k
    ∧ (execute_arbitrage cfg env (some k)).2
        = .attempted (k + 1)
            (env.baseFee + min cfg.basePriorityFee env.suggestedPriority)
            (min cfg.basePriorityFee env.suggestedPriority) .reverted := by
  have hg := gasGuard_of_le cfg env.baseFee env.suggestedPriority h2
  rw [execute_attempt cfg env (some k) r _ _ h1 hg, h3]
  exact ⟨by simp [acquireNonce], rfl⟩

def c5Env : CycleEnv := ⟨[cgRes], 80, 7, 9, .reverted⟩

/-- Closed instantiation of C5_reverted_restores_nonce: held nonce 5, the
reverted attempt used nonce 6, and the held nonce is 5 again afterwards. -/
theorem C5_reverted_restores_nonce_witness :
    (execute_arbitrage cgCfg c5Env (some 5)).1 = some 5
    ∧ (execute_arbitrage cgCfg c5Env (some 5)).2
        = .attempted (5 + 1)
            (c5Env.baseFee + min cgCfg.basePriorityFee c5Env.suggestedPriority)
            (min cgCfg.basePriorityFee c5Env.suggestedPriority) .reverted :=
  C5_reverted_restores_nonce cgCfg c5Env 5 cgRes cg_select (by norm_num [cgCfg, c5Env]) rfl

def c6Env : CycleEnv := ⟨[cgRes], 80, 7, 9, .success⟩

def c6Env2 : CycleEnv := ⟨[cgRes], 80, 7, 33, .success⟩

theorem goodCycle_c6Env : goodCycle cgCfg c6Env := by
  refine ⟨⟨cgRes, cg_select⟩, ?_, rfl⟩
  have h : gasGuard cgCfg c6Env.baseFee c6Env.suggestedPriority = some (82, 2) := by
    norm_num [gasGuard, cgCfg, c6Env]
  rw [h]
  intro hc
  cases hc

theorem goodCycle_c6Env2 : goodCycle cgCfg c6Env2 := by
  refine ⟨⟨cgRes, cg_select⟩, ?_, rfl⟩
  have h : gasGuard cgCfg c6Env2.baseFee c6Env2.suggestedPriority = some (82, 2) := by
    norm_num [gasGuard, cgCfg, c6Env2]
  rw [h]
  intro hc
  cases hc

/-- C6 counterexample: starting with no held nonce, one successful
submission whose first acquisition fetched pending count 9 leaves the held
nonce at 9 = initial + N - 1, not at initial + N = 10 as the claim
states (the acquisition increments before use, not after success). -/
theorem C6_counterexample :
    goodCycle cgCfg c6Env
    ∧ runCycles cgCfg [c6Env] none = some 9
    ∧ runCycles cgCfg [c6Env] none ≠ some (9 + 1) := by
  have hrun : runCycles cgCfg [c6Env] none = some 9 := by
    rw [runCycles_cons, goodCycle_step cgCfg c6Env none goodCycle_c6Env]
    rfl
  refine ⟨goodCycle_c6Env, hrun, ?_⟩
  rw [hrun]
  intro hc
  cases hc

/-- C6 (amended): starting from a process with no locally held nonce,
after N >= 1 consecutive submissions that all confirm successfully the held
nonce equals initial + N - 1, where initial is the pending transaction
count fetched at the first acquisition (the acquisition increments before
use, so the Nth submission both uses and leaves held the value
initial + N - 1). -/
theorem C6_success_nonce (cfg : AgentConfig) (e0 : CycleEnv) (envs : List CycleEnv)
    (h0 : goodCycle cfg e0) (h : ∀ e ∈ envs, goodCycle cfg e) :
    runCycles cfg (e0 :: envs) none
      = some ((e0.pendingCount : ℤ) + (e0 :: envs).length - 1) := by
  rw [runCycles_cons, goodCycle_step cfg e0 none h0]
  rw [show acquireNonce e0.pendingCount none = (e0.pendingCount : ℤ) from rfl]
  rw [runCycles_good cfg envs (e0.pendingCount : ℤ) h]
  congr 1
  push_cast [List.length_cons]
  ring

/-- Closed instantiation of C6_success_nonce: two successful submissions
starting from no held nonce with first fetched pending count 9 leave the
held nonce at 9 + 2 - 1 = 10. -/
theorem C6_success_nonce_witness :
    runCycles cgCfg (c6Env :: [c6Env2]) none
      = some ((c6Env.pendingCount : ℤ) + (c6Env :: [c6Env2]).length - 1) :=
  C6_success_nonce cgCfg c6Env [c6Env2] goodCycle_c6Env (by
    intro e he
    rw [List.mem_singleton] at he
    subst he
    exact goodCycle_c6Env2)

def c7EnvA : CycleEnv := ⟨[cgRes], 80, 7, 9, .failure 10⟩

def c7EnvB : CycleEnv := ⟨[cgRes], 80, 7, 42, .success⟩

/-- C7 counterexample: starting from held nonce 5, an attempt raises and
the resynchronising fetch returns pending count 10; the claim says the next
acquisition yields that fetched value (10), but the next cycle acquires and
uses nonce 11 — the acquisition increments the resynced held value (and
ignores the pending count 42 the network would report next cycle). -/
theorem C7_counterexample :
    (execute_arbitrage cgCfg c7EnvA (some 5)).1 = some 10
    ∧ (execute_arbitrage cgCfg c7EnvB
          ((execute_arbitrage cgCfg c7EnvA (some 5)).1)).2
        = .attempted 11 82 2 .success
    ∧ (11 : ℤ) ≠ 10 := by
  have hgA : gasGuard cgCfg c7EnvA.baseFee c7EnvA.suggestedPriority = some (82, 2) := by
    norm_num [gasGuard, cgCfg, c7EnvA]
  have hgB : gasGuard cgCfg c7EnvB.baseFee c7EnvB.suggestedPriority = some (82, 2) := by
    norm_num [gasGuard, cgCfg, c7EnvB]
  have hA : (execute_arbitrage cgCfg c7EnvA (some 5)).1 = some 10 := by
    rw [execute_attempt cgCfg c7EnvA (some 5) cgRes 82 2 cg_select hgA]
    rfl
  refine ⟨hA, ?_, by norm_num⟩
  rw [hA, execute_attempt cgCfg c7EnvB (some 10) cgRes 82 2 cg_select hgB]
  rfl

/-- C7 (amended): after an exception anywhere in the
build/sign/broadcast/await span, the local nonce state is replaced by the
freshly fetched pending count c, and the next acquisition therefore yields
c + 1 — derived by incrementing the resynced held value, not preAttempt + 1
and not the fetched value itself. -/
theorem C7_failure_resync (cfg : AgentConfig) (env : CycleEnv) (ln : Option ℤ)
    (r : SimResult) (c : ℕ)
    (h1 : select cfg.minProfitThreshold env.results = some r)
    (h2 : env.baseFee + min cfg.basePriorityFee env.suggestedPriority ≤ cfg.maxGasPrice)
    (h3 : env.outcome = .failure c) :
    (execute_arbitrage cfg env ln).1 = some (c : ℤ)
    ∧ ∀ pend : ℕ, acquireNonce pend ((execute_arbitrage cfg env ln).1) = (c : ℤ) + 1 := by
  have hg := gasGuard_of_le cfg env.baseFee env.suggestedPriority h2
  rw [execute_attempt cfg env ln r _ _ h1 hg, h3]
  exact ⟨rfl, fun pend => rfl⟩

/-- Closed instantiation of C7_failure_resync: the exception path leaves
the held nonce at the fetched pending count 10, and the next acquisition
yields 11. -/
theorem C7_failure_resync_witness :
    (execute_arbitrage cgCfg c7EnvA (some 5)).1 = some 10
    ∧ ∀ pend : ℕ,
        acquireNonce pend ((execute_arbitrage cgCfg c7EnvA (some 5)).1) = 10 + 1 :=
  C7_failure_resync cgCfg c7EnvA (some 5) cgRes 10 cg_select
    (by norm_num [cgCfg, c7EnvA]) rfl

/-- C8: in a cycle where no candidate qualifies, and likewise in a cycle
where the gas admission guard rejects the selected opportunity, no
transaction is built, signed or broadcast (the cycle step is noCandidate
resp. gasRejected, never an attempt) and the nonce state is exactly what it
was at the start of the cycle. -/
theorem C8_reject_frame (cfg : AgentConfig) (env : CycleEnv) (ln : Option ℤ) :
    (select cfg.minProfitThreshold env.results = none →
      execute_arbitrage cfg env ln = (ln, CycleStep.noCandidate))
    ∧ ∀ r, select cfg.minProfitThreshold env.results = some r →
        cfg.maxGasPrice < env.baseFee + min cfg.basePriorityFee env.suggestedPriority →
        execute_arbitrage cfg env ln
          = (ln, CycleStep.gasRejected
              (env.baseFee + min cfg.basePriorityFee env.suggestedPriority)) :=
  ⟨execute_noCandidate cfg env ln,
   fun r hs hlt => execute_gasRejected cfg env ln r hs hlt⟩

def c8Env : CycleEnv := ⟨[cgRes], 200, 7, 9, .success⟩

/-- Closed instantiation of C8_reject_frame: a qualifying opportunity is
abandoned by the gas guard (observed maxFee 202 > cap 100) with the nonce
state unchanged. -/
theorem C8_reject_frame_witness :
    execute_arbitrage cgCfg c8Env (some 5)
      = (some 5, CycleStep.gasRejected
          (c8Env.baseFee + min cgCfg.basePriorityFee c8Env.suggestedPriority)) :=
  (C8_reject_frame cgCfg c8Env (some 5)).2 cgRes cg_select (by norm_num [cgCfg, c8Env])

def c9GasEnv : ProbeEnv := ⟨.ok 1000000, .ok 500000, .ok (true, 0), .error ()⟩

/-- C9 counterexample: a probe whose quotes and simulation succeed but
whose gas estimation raises.  The except of lines 194-196 assigns the
fallback 0.01 only to gas_cost_weth; the debug print at line 213 then
references the unbound gas_estimate and raises UnboundLocalError (with a
positive gross profit the TypeError at line 200 strikes even earlier), so
the probe is aborted after all and reports (False, 0, 0, 0) — its reported
gas cost is 0, never the fallback 0.01, contradicting the claim that the
substitution keeps the probe alive. -/
theorem C9_counterexample :
    simulate_arbitrage c9GasEnv = failTuple
    ∧ (simulate_arbitrage c9GasEnv).gasCost ≠ 1 / 100 := by
  have h : simulate_arbitrage c9GasEnv = failTuple :=
    simulate_gas_estimation_error c9GasEnv rfl
  refine ⟨h, ?_⟩
  rw [h]
  norm_num [failTuple]

/-- C9 (amended): any error during a single probe is caught within the
probe and reported as the (False, 0, 0, 0) tuple (profitable = false,
netProfit = 0), and the remaining probes of the scan still execute (the
scan produces exactly one result for every (pair, amount) probe, whatever
each probe's errors).  A gas-estimation failure does assign the fixed
fallback estimate 0.01 WETH, but contrary to the claim it does not save the
probe: every probe whose gas estimation failed still ends in the
(False, 0, 0, 0) report — via the Decimal-minus-float TypeError at line 200
when the gross profit is nonzero, and via the UnboundLocalError of the
line-213 debug print referencing the unassigned gas_estimate when it is
zero. -/
theorem C9_per_probe_isolation :
    (∀ env : ProbeEnv,
        env.quote1 = .error () ∨ env.quote2 = .error () ∨ env.simCall = .error () →
        simulate_arbitrage env = failTuple)
    ∧ probeGasCost (.error ()) = 1 / 100
    ∧ (∀ env : ProbeEnv, env.gasEstimate = .error () →
        simulate_arbitrage env = failTuple)
    ∧ ∀ (P A : Type) (oracle : P → A → ProbeEnv) (pairs : List P) (amounts : List A),
        (scanResults oracle pairs amounts).length = pairs.length * amounts.length := by
  refine ⟨fun env h => simulate_arbitrage_of_error env (simulateCore_oracle_error env h),
    rfl, fun env h => simulate_gas_estimation_error env h, ?_⟩
  intro P A oracle pairs amounts
  induction pairs with
  | nil => simp [scanResults]
  | cons p ps ih =>
    simp [scanResults] at ih ⊢
    rw [ih]
    ring

/-- Closed instantiation of C9_per_probe_isolation at a probe whose first
pool quote raises. -/
theorem C9_per_probe_isolation_witness :
    simulate_arbitrage ⟨.error (), .ok 5, .ok (true, 7), .ok (1, 1)⟩ = failTuple :=
  C9_per_probe_isolation.1 ⟨.error (), .ok 5, .ok (true, 7), .ok (1, 1)⟩ (Or.inl rfl)

/-- C10 counterexample: a trace whose first height read succeeds but whose
second polling iteration's height read raises: the read at the top of the
loop is not wrapped in any try, the exception escapes and the process
terminates (crashed) — contradicting the claim that failures of subsequent
chain-height reads are caught and the loop continues. -/
theorem C10_counterexample :
    mainModel (.ok 1) [⟨.ok 2, .completed true⟩, ⟨.error (), .completed true⟩]
      = MainResult.crashed := by
  norm_num [mainModel, runLoop]

/-- C10 (amended): failures of execution cycles are caught inside
handle_new_block and converted into a reported (False, backoff) outcome
after which polling continues, and a transport failure on the very first
height read is fatal at startup; however a transport failure on ANY
chain-height read — not only the very first — propagates uncaught and
terminates the process, so the loop keeps running exactly on traces where
every height read succeeds, regardless of handler outcomes. -/
theorem C10_failure_containment (firstRead : Except Unit ℕ) (lb : ℕ)
    (envs : List LoopEnv)
    (h0 : firstRead = .ok lb)
    (h : ∀ e ∈ envs, e.blockNumber ≠ .error ()) :
    (∃ lb2, mainModel firstRead envs = .polling lb2)
    ∧ handle_new_block .raisedErr = (false, 10)
    ∧ ∀ envs2 : List LoopEnv, mainModel (.error ()) envs2 = .startupFatal := by
  subst h0
  exact ⟨runLoop_ok_heights envs lb h, rfl, fun envs2 => rfl⟩

/-- Closed instantiation of C10_failure_containment: a trace with one
advanced block whose handler raises still leaves the loop polling. -/
theorem C10_failure_containment_witness :
    ∃ lb2, mainModel (.ok 1) [⟨.ok 2, HandlerEv.raisedErr⟩] = .polling lb2 :=
  (C10_failure_containment (.ok 1) 1 [⟨.ok 2, HandlerEv.raisedErr⟩] rfl (by
    intro e he
    rw [List.mem_singleton] at he
    subst he
    intro hc
    cases hc)).1

end TradingBot
